import Mathlib

/-!
Verification of the PBD cloth-simulation core.

The definitions below are a shallow embedding of the cloth simulation:
the configuration and derived values from src/utils/config.js, the
grid/mass initialization compute shader, the Predict / Constrain /
Integrate / Drive compute shaders, and the per-frame orchestration in
ClothSimulation.simulate.  Shader floating-point scalars are modelled
over the reals; GPU storage buffers are modelled as total functions from
vertex (or constraint) index to values, and the sequential Gauss-Seidel
constraint pass as a left fold over the constraint list.
-/

namespace Cloth

/-- Three-component vector, modelling a WGSL vec3 of f32 over ℝ. -/
structure Vec3 where
  x : ℝ
  y : ℝ
  z : ℝ

namespace Vec3

@[ext] theorem ext' {a b : Vec3} (hx : a.x = b.x) (hy : a.y = b.y) (hz : a.z = b.z) :
    a = b := by
  cases a; cases b; simp_all

/-- Componentwise addition. -/
noncomputable def add (a b : Vec3) : Vec3 := ⟨a.x + b.x, a.y + b.y, a.z + b.z⟩

/-- Componentwise subtraction. -/
noncomputable def sub (a b : Vec3) : Vec3 := ⟨a.x - b.x, a.y - b.y, a.z - b.z⟩

/-- Scalar multiplication. -/
noncomputable def smul (r : ℝ) (v : Vec3) : Vec3 := ⟨r * v.x, r * v.y, r * v.z⟩

/-- Division of a vector by a scalar, as in WGSL `v / s`. -/
noncomputable def sdiv (v : Vec3) (r : ℝ) : Vec3 := ⟨v.x / r, v.y / r, v.z / r⟩

noncomputable instance : Add Vec3 := ⟨add⟩
noncomputable instance : Sub Vec3 := ⟨sub⟩
noncomputable instance : SMul ℝ Vec3 := ⟨smul⟩

@[simp] theorem add_x (a b : Vec3) : (a + b).x = a.x + b.x := rfl
@[simp] theorem add_y (a b : Vec3) : (a + b).y = a.y + b.y := rfl
@[simp] theorem add_z (a b : Vec3) : (a + b).z = a.z + b.z := rfl
@[simp] theorem sub_x (a b : Vec3) : (a - b).x = a.x - b.x := rfl
@[simp] theorem sub_y (a b : Vec3) : (a - b).y = a.y - b.y := rfl
@[simp] theorem sub_z (a b : Vec3) : (a - b).z = a.z - b.z := rfl
@[simp] theorem smul_x (r : ℝ) (v : Vec3) : (r • v).x = r * v.x := rfl
@[simp] theorem smul_y (r : ℝ) (v : Vec3) : (r • v).y = r * v.y := rfl
@[simp] theorem smul_z (r : ℝ) (v : Vec3) : (r • v).z = r * v.z := rfl
@[simp] theorem sdiv_x (v : Vec3) (r : ℝ) : (v.sdiv r).x = v.x / r := rfl
@[simp] theorem sdiv_y (v : Vec3) (r : ℝ) : (v.sdiv r).y = v.y / r := rfl
@[simp] theorem sdiv_z (v : Vec3) (r : ℝ) : (v.sdiv r).z = v.z / r := rfl

/-- Euclidean norm, modelling WGSL `length`. -/
noncomputable def norm (v : Vec3) : ℝ := Real.sqrt (v.x ^ 2 + v.y ^ 2 + v.z ^ 2)

theorem norm_nonneg (v : Vec3) : 0 ≤ v.norm := Real.sqrt_nonneg _

theorem norm_smul (c : ℝ) (v : Vec3) : (c • v).norm = |c| * v.norm := by
  unfold norm
  rw [show (c • v).x ^ 2 + (c • v).y ^ 2 + (c • v).z ^ 2
        = c ^ 2 * (v.x ^ 2 + v.y ^ 2 + v.z ^ 2) by simp; ring]
  rw [Real.sqrt_mul (sq_nonneg c), Real.sqrt_sq_eq_abs]

theorem norm_zero_vec : norm ⟨0, 0, 0⟩ = 0 := by
  unfold norm; norm_num

end Vec3

/-- Euclidean distance between two points, as computed by the `distance`
helper in `ClothSimulation.generateConstraints`. -/
noncomputable def dist3 (a b : Vec3) : ℝ :=
  Real.sqrt ((a.x - b.x) ^ 2 + (a.y - b.y) ^ 2 + (a.z - b.z) ^ 2)

/-- Setup inputs, from the configuration object in src/utils/config.js. -/
structure Config where
  width : ℝ
  height : ℝ
  resolutionX : ℕ
  resolutionY : ℕ
  dt : ℝ
  gravity : ℝ
  gravityEnabled : Bool
  damping : ℝ
  constraintIterations : ℕ
  amplitude : ℝ
  frequency : ℝ

/-- Values computed by `getDeriveConfig` in src/utils/config.js. -/
structure DerivedConfig where
  vertexCount : ℕ
  triangleCount : ℕ
  spacingX : ℝ
  spacingY : ℝ
  centerIndex : ℕ

/-- Embedding of `getDeriveConfig` (src/utils/config.js): vertexCount,
triangleCount, the grid spacings, and the driven (center) vertex index
`floor(resolutionX/2) + floor(resolutionY/2)*resolutionX`. -/
noncomputable def getDeriveConfig (cfg : Config) : DerivedConfig :=
  { vertexCount := cfg.resolutionX * cfg.resolutionY
    triangleCount := (cfg.resolutionX - 1) * (cfg.resolutionY - 1) * 2
    spacingX := cfg.width / ((cfg.resolutionX : ℝ) - 1)
    spacingY := cfg.height / ((cfg.resolutionY : ℝ) - 1)
    centerIndex := cfg.resolutionX / 2 + cfg.resolutionY / 2 * cfg.resolutionX }

/-- Initial grid position of vertex `i`, from the init compute shader:
`x = index % resolutionX`, `z = index / resolutionX`,
`position = (startX + x*spacingX, 0, startZ + z*spacingZ)` with
`startX = -width/2`, `startZ = -height/2` (the initParams uniform written
in `ClothSimulation.createBuffers`). -/
noncomputable def initPosition (cfg : Config) (i : ℕ) : Vec3 :=
  ⟨-cfg.width / 2 + (i % cfg.resolutionX : ℕ) * (getDeriveConfig cfg).spacingX,
   0,
   -cfg.height / 2 + (i / cfg.resolutionX : ℕ) * (getDeriveConfig cfg).spacingY⟩

/-- Corner test of the init compute shader:
`(x == 0 || x == resolutionX-1) && (z == 0 || z == resolutionY-1)`
with `x = index % resolutionX` and `z = index / resolutionX`. -/
def isCorner (cfg : Config) (i : ℕ) : Bool :=
  (i % cfg.resolutionX == 0 || i % cfg.resolutionX == cfg.resolutionX - 1) &&
  (i / cfg.resolutionX == 0 || i / cfg.resolutionX == cfg.resolutionY - 1)

/-- Inverse mass assigned by the init compute shader:
`select(1.0, 0.0, isCorner)`. -/
noncomputable def initInverseMass (cfg : Config) (i : ℕ) : ℝ :=
  if isCorner cfg i then 0 else 1

/-- Constraint index pairs emitted by `ClothSimulation.generateConstraints`:
row-major over the grid, a horizontal constraint `(idx, idx+1)` when
`x < resolutionX-1` then a vertical constraint `(idx, idx+resolutionX)`
when `z < resolutionY-1`. -/
def genConstraints (rx ry : ℕ) : List (ℕ × ℕ) :=
  (List.range ry).flatMap fun z =>
    (List.range rx).flatMap fun x =>
      (if x < rx - 1 then [(z * rx + x, z * rx + x + 1)] else []) ++
      (if z < ry - 1 then [(z * rx + x, z * rx + x + rx)] else [])

/-- Rest lengths computed by `ClothSimulation.generateConstraints`: the
Euclidean distance between the two endpoints' initial positions. -/
noncomputable def genRestLengths (cfg : Config) : List ℝ :=
  (genConstraints cfg.resolutionX cfg.resolutionY).map fun c =>
    dist3 (initPosition cfg c.1) (initPosition cfg c.2)

/-- Simulation buffers plus the accumulated time counter. -/
structure SimState where
  positions : ℕ → Vec3
  velocities : ℕ → Vec3
  predicted : ℕ → Vec3
  inverseMasses : ℕ → ℝ
  constraints : List (ℕ × ℕ)
  restLengths : List ℝ
  time : ℝ

/-- State after `ClothSimulation.initialize`: grid positions, zero
velocities, corner inverse masses (init shader), generated constraints
and rest lengths, time 0. -/
noncomputable def initState (cfg : Config) : SimState :=
  { positions := initPosition cfg
    velocities := fun _ => ⟨0, 0, 0⟩
    predicted := fun _ => ⟨0, 0, 0⟩
    inverseMasses := initInverseMass cfg
    constraints := genConstraints cfg.resolutionX cfg.resolutionY
    restLengths := genRestLengths cfg
    time := 0 }

/-- Velocity produced by the Predict shader for a free vertex:
`velocity.y -= gravity * dt` when `gravityEnabled > 0.5`, else unchanged. -/
noncomputable def predictVelocity (cfg : Config) (s : SimState) (i : ℕ) : Vec3 :=
  if cfg.gravityEnabled then
    ⟨(s.velocities i).x, (s.velocities i).y - cfg.gravity * cfg.dt, (s.velocities i).z⟩
  else s.velocities i

open Classical in
/-- Embedding of the Predict compute shader (PBD stage 1): indices past
the buffer length are untouched; a pinned vertex (inverse mass 0) gets
`predicted := position` and no velocity write; otherwise the velocity is
updated (gravity) and `predicted := position + velocity * dt`. -/
noncomputable def predictStage (cfg : Config) (s : SimState) : SimState :=
  { s with
    velocities := fun i =>
      if i < (getDeriveConfig cfg).vertexCount ∧ s.inverseMasses i ≠ 0 then
        predictVelocity cfg s i
      else s.velocities i
    predicted := fun i =>
      if i < (getDeriveConfig cfg).vertexCount then
        if s.inverseMasses i = 0 then s.positions i
        else s.positions i + cfg.dt • predictVelocity cfg s i
      else s.predicted i }

open Classical in
/-- Embedding of one constraint projection from the Constrain compute
shader (PBD stage 2): skip when `invMassA + invMassB == 0`; skip when
`length(posB - posA) < 0.0001`; otherwise apply the inverse-mass-weighted
correction, writing index `a` then index `b`. -/
noncomputable def constrainOne (im : ℕ → ℝ) (c : ℕ × ℕ) (restLength : ℝ)
    (p : ℕ → Vec3) : ℕ → Vec3 :=
  let invMassA := im c.1
  let invMassB := im c.2
  if invMassA + invMassB = 0 then p
  else
    let posA := p c.1
    let posB := p c.2
    let delta := posB - posA
    let currentDist := delta.norm
    if currentDist < 1e-4 then p
    else
      let lambda := (currentDist - restLength) / (invMassA + invMassB)
      let correction := lambda • delta.sdiv currentDist
      Function.update (Function.update p c.1 (posA + invMassA • correction))
        c.2 (posB - invMassB • correction)

/-- One Gauss-Seidel pass over every constraint in generator order
(one dispatch of the Constrain shader over all constraint indices). -/
noncomputable def constrainIteration (s : SimState) : SimState :=
  { s with
    predicted := (s.constraints.zip s.restLengths).foldl
      (fun p cl => constrainOne s.inverseMasses cl.1 cl.2 p) s.predicted }

/-- The Constrain stage: `constraintIterations` sequential passes, as in
the iteration loop of `ClothSimulation.simulate`. -/
noncomputable def constrainStage (cfg : Config) (s : SimState) : SimState :=
  constrainIteration^[cfg.constraintIterations] s

open Classical in
/-- Embedding of the Integrate compute shader (PBD stage 3): pinned and
out-of-range vertices are skipped; otherwise
`velocity := ((predicted - position) / dt) * damping` and
`position := predicted`. -/
noncomputable def integrateStage (cfg : Config) (s : SimState) : SimState :=
  { s with
    velocities := fun i =>
      if i < (getDeriveConfig cfg).vertexCount ∧ s.inverseMasses i ≠ 0 then
        cfg.damping • (s.predicted i - s.positions i).sdiv cfg.dt
      else s.velocities i
    positions := fun i =>
      if i < (getDeriveConfig cfg).vertexCount ∧ s.inverseMasses i ≠ 0 then
        s.predicted i
      else s.positions i }

/-- Embedding of the sine-wave Drive compute shader: one thread writes
the driven vertex unconditionally:
`positions[centerVertexIndex].y = amplitude * sin(frequency * time)` and
`velocities[centerVertexIndex] = (0,0,0)`.  There is no bounds check and
no inverse-mass check. -/
noncomputable def driveStage (cfg : Config) (s : SimState) : SimState :=
  let index := (getDeriveConfig cfg).centerIndex
  { s with
    positions := Function.update s.positions index
      ⟨(s.positions index).x,
       cfg.amplitude * Real.sin (cfg.frequency * s.time),
       (s.positions index).z⟩
    velocities := Function.update s.velocities index ⟨0, 0, 0⟩ }

/-- One frame of `ClothSimulation.simulate`: `time += dt`, then
Predict, Constrain × iterations, Integrate, Drive. -/
noncomputable def tick (cfg : Config) (s : SimState) : SimState :=
  driveStage cfg (integrateStage cfg (constrainStage cfg
    (predictStage cfg { s with time := s.time + cfg.dt })))

/-- Setup errors named by the specification's error taxonomy. -/
inductive SetupError where
  | invalidConfiguration
  | configurationError

/-- Embedding of `ClothSimulation.initialize` together with the
constructor and `getDeriveConfig`: buffers are created, the init shader
and constraint generation run, and the state is produced.  No code path
performs configuration validation or throws, so the result is always
`Except.ok`; the `Except` return type records where a setup error would
surface to the caller. -/
noncomputable def initializeSim (cfg : Config) : Except SetupError SimState :=
  Except.ok (initState cfg)

end Cloth

namespace Cloth

@[simp] theorem predictStage_positions (cfg : Config) (s : SimState) :
    (predictStage cfg s).positions = s.positions := rfl

@[simp] theorem predictStage_inverseMasses (cfg : Config) (s : SimState) :
    (predictStage cfg s).inverseMasses = s.inverseMasses := rfl

@[simp] theorem predictStage_constraints (cfg : Config) (s : SimState) :
    (predictStage cfg s).constraints = s.constraints := rfl

@[simp] theorem predictStage_restLengths (cfg : Config) (s : SimState) :
    (predictStage cfg s).restLengths = s.restLengths := rfl

@[simp] theorem predictStage_time (cfg : Config) (s : SimState) :
    (predictStage cfg s).time = s.time := rfl

@[simp] theorem constrainIteration_positions (s : SimState) :
    (constrainIteration s).positions = s.positions := rfl

@[simp] theorem constrainIteration_velocities (s : SimState) :
    (constrainIteration s).velocities = s.velocities := rfl

@[simp] theorem constrainIteration_inverseMasses (s : SimState) :
    (constrainIteration s).inverseMasses = s.inverseMasses := rfl

@[simp] theorem constrainIteration_constraints (s : SimState) :
    (constrainIteration s).constraints = s.constraints := rfl

@[simp] theorem constrainIteration_restLengths (s : SimState) :
    (constrainIteration s).restLengths = s.restLengths := rfl

@[simp] theorem constrainIteration_time (s : SimState) :
    (constrainIteration s).time = s.time := rfl

theorem constrainIterate_positions (n : ℕ) (s : SimState) :
    (constrainIteration^[n] s).positions = s.positions := by
  induction n generalizing s with
  | zero => rfl
  | succ n ih => rw [Function.iterate_succ_apply, ih]; rfl

theorem constrainIterate_velocities (n : ℕ) (s : SimState) :
    (constrainIteration^[n] s).velocities = s.velocities := by
  induction n generalizing s with
  | zero => rfl
  | succ n ih => rw [Function.iterate_succ_apply, ih]; rfl

theorem constrainIterate_inverseMasses (n : ℕ) (s : SimState) :
    (constrainIteration^[n] s).inverseMasses = s.inverseMasses := by
  induction n generalizing s with
  | zero => rfl
  | succ n ih => rw [Function.iterate_succ_apply, ih]; rfl

theorem constrainIterate_constraints (n : ℕ) (s : SimState) :
    (constrainIteration^[n] s).constraints = s.constraints := by
  induction n generalizing s with
  | zero => rfl
  | succ n ih => rw [Function.iterate_succ_apply, ih]; rfl

theorem constrainIterate_restLengths (n : ℕ) (s : SimState) :
    (constrainIteration^[n] s).restLengths = s.restLengths := by
  induction n generalizing s with
  | zero => rfl
  | succ n ih => rw [Function.iterate_succ_apply, ih]; rfl

theorem constrainIterate_time (n : ℕ) (s : SimState) :
    (constrainIteration^[n] s).time = s.time := by
  induction n generalizing s with
  | zero => rfl
  | succ n ih => rw [Function.iterate_succ_apply, ih]; rfl

@[simp] theorem constrainStage_positions (cfg : Config) (s : SimState) :
    (constrainStage cfg s).positions = s.positions :=
  constrainIterate_positions _ _

@[simp] theorem constrainStage_velocities (cfg : Config) (s : SimState) :
    (constrainStage cfg s).velocities = s.velocities :=
  constrainIterate_velocities _ _

@[simp] theorem constrainStage_inverseMasses (cfg : Config) (s : SimState) :
    (constrainStage cfg s).inverseMasses = s.inverseMasses :=
  constrainIterate_inverseMasses _ _

@[simp] theorem constrainStage_constraints (cfg : Config) (s : SimState) :
    (constrainStage cfg s).constraints = s.constraints :=
  constrainIterate_constraints _ _

@[simp] theorem constrainStage_restLengths (cfg : Config) (s : SimState) :
    (constrainStage cfg s).restLengths = s.restLengths :=
  constrainIterate_restLengths _ _

@[simp] theorem constrainStage_time (cfg : Config) (s : SimState) :
    (constrainStage cfg s).time = s.time :=
  constrainIterate_time _ _

@[simp] theorem integrateStage_predicted (cfg : Config) (s : SimState) :
    (integrateStage cfg s).predicted = s.predicted := rfl

@[simp] theorem integrateStage_inverseMasses (cfg : Config) (s : SimState) :
    (integrateStage cfg s).inverseMasses = s.inverseMasses := rfl

@[simp] theorem integrateStage_constraints (cfg : Config) (s : SimState) :
    (integrateStage cfg s).constraints = s.constraints := rfl

@[simp] theorem integrateStage_restLengths (cfg : Config) (s : SimState) :
    (integrateStage cfg s).restLengths = s.restLengths := rfl

@[simp] theorem integrateStage_time (cfg : Config) (s : SimState) :
    (integrateStage cfg s).time = s.time := rfl

@[simp] theorem driveStage_predicted (cfg : Config) (s : SimState) :
    (driveStage cfg s).predicted = s.predicted := rfl

@[simp] theorem driveStage_inverseMasses (cfg : Config) (s : SimState) :
    (driveStage cfg s).inverseMasses = s.inverseMasses := rfl

@[simp] theorem driveStage_constraints (cfg : Config) (s : SimState) :
    (driveStage cfg s).constraints = s.constraints := rfl

@[simp] theorem driveStage_restLengths (cfg : Config) (s : SimState) :
    (driveStage cfg s).restLengths = s.restLengths := rfl

@[simp] theorem driveStage_time (cfg : Config) (s : SimState) :
    (driveStage cfg s).time = s.time := rfl

@[simp] theorem tick_inverseMasses (cfg : Config) (s : SimState) :
    (tick cfg s).inverseMasses = s.inverseMasses := by
  unfold tick; simp

@[simp] theorem tick_constraints (cfg : Config) (s : SimState) :
    (tick cfg s).constraints = s.constraints := by
  unfold tick; simp

@[simp] theorem tick_restLengths (cfg : Config) (s : SimState) :
    (tick cfg s).restLengths = s.restLengths := by
  unfold tick; simp

@[simp] theorem tick_time (cfg : Config) (s : SimState) :
    (tick cfg s).time = s.time + cfg.dt := by
  unfold tick; simp

theorem tickN_inverseMasses (cfg : Config) (n : ℕ) (s : SimState) :
    ((tick cfg)^[n] s).inverseMasses = s.inverseMasses := by
  induction n generalizing s with
  | zero => rfl
  | succ n ih => rw [Function.iterate_succ_apply, ih, tick_inverseMasses]

theorem tickN_constraints (cfg : Config) (n : ℕ) (s : SimState) :
    ((tick cfg)^[n] s).constraints = s.constraints := by
  induction n generalizing s with
  | zero => rfl
  | succ n ih => rw [Function.iterate_succ_apply, ih, tick_constraints]

theorem tickN_restLengths (cfg : Config) (n : ℕ) (s : SimState) :
    ((tick cfg)^[n] s).restLengths = s.restLengths := by
  induction n generalizing s with
  | zero => rfl
  | succ n ih => rw [Function.iterate_succ_apply, ih, tick_restLengths]

end Cloth

namespace Cloth

theorem sub_self_vec (v : Vec3) : v - v = (⟨0, 0, 0⟩ : Vec3) := by
  ext <;> simp

theorem constrainOne_pinned (im : ℕ → ℝ) (a b : ℕ) (L : ℝ) (p : ℕ → Vec3)
    (h : im a + im b = 0) : constrainOne im (a, b) L p = p := by
  unfold constrainOne
  simp [h]

theorem constrainOne_near (im : ℕ → ℝ) (a b : ℕ) (L : ℝ) (p : ℕ → Vec3)
    (h : (p b - p a).norm < 1e-4) : constrainOne im (a, b) L p = p := by
  unfold constrainOne
  by_cases h0 : im a + im b = 0
  · simp [h0]
  · simp [h0, h]

theorem constrainOne_free (im : ℕ → ℝ) (a b : ℕ) (L : ℝ) (p : ℕ → Vec3)
    (h0 : im a + im b ≠ 0) (hd : ¬ (p b - p a).norm < 1e-4) :
    a ≠ b ∧
    constrainOne im (a, b) L p a
      = p a + im a • (((p b - p a).norm - L) / (im a + im b)) •
          (p b - p a).sdiv (p b - p a).norm ∧
    constrainOne im (a, b) L p b
      = p b - im b • (((p b - p a).norm - L) / (im a + im b)) •
          (p b - p a).sdiv (p b - p a).norm ∧
    ∀ j, j ≠ a → j ≠ b → constrainOne im (a, b) L p j = p j := by
  have hab : a ≠ b := by
    intro hEq
    apply hd
    rw [hEq, sub_self_vec, Vec3.norm_zero_vec]
    norm_num
  refine ⟨hab, ?_, ?_, ?_⟩
  · unfold constrainOne
    simp only [if_neg h0, if_neg hd]
    rw [Function.update_noteq hab, Function.update_same]
  · unfold constrainOne
    simp only [if_neg h0, if_neg hd]
    rw [Function.update_same]
  · intro j hja hjb
    unfold constrainOne
    simp only [if_neg h0, if_neg hd]
    rw [Function.update_noteq hjb, Function.update_noteq hja]

end Cloth

namespace Cloth

/-- Grid-coordinate corner predicate: `(row, col)` of vertex `i` is one of
the four grid corners. -/
def cornerPair (cfg : Config) (i : ℕ) : Prop :=
  (i / cfg.resolutionX = 0 ∧ i % cfg.resolutionX = 0) ∨
  (i / cfg.resolutionX = 0 ∧ i % cfg.resolutionX = cfg.resolutionX - 1) ∨
  (i / cfg.resolutionX = cfg.resolutionY - 1 ∧ i % cfg.resolutionX = 0) ∨
  (i / cfg.resolutionX = cfg.resolutionY - 1 ∧ i % cfg.resolutionX = cfg.resolutionX - 1)

theorem driveStage_y (cfg : Config) (s : SimState) :
    ((driveStage cfg s).positions (getDeriveConfig cfg).centerIndex).y
      = cfg.amplitude * Real.sin (cfg.frequency * s.time) := by
  unfold driveStage
  simp

theorem driveStage_x (cfg : Config) (s : SimState) :
    ((driveStage cfg s).positions (getDeriveConfig cfg).centerIndex).x
      = (s.positions (getDeriveConfig cfg).centerIndex).x := by
  unfold driveStage
  simp

theorem driveStage_z (cfg : Config) (s : SimState) :
    ((driveStage cfg s).positions (getDeriveConfig cfg).centerIndex).z
      = (s.positions (getDeriveConfig cfg).centerIndex).z := by
  unfold driveStage
  simp

theorem driveStage_vel (cfg : Config) (s : SimState) :
    (driveStage cfg s).velocities (getDeriveConfig cfg).centerIndex = ⟨0, 0, 0⟩ := by
  unfold driveStage
  simp

theorem tick_drive_y (cfg : Config) (s : SimState) :
    ((tick cfg s).positions (getDeriveConfig cfg).centerIndex).y
      = cfg.amplitude * Real.sin (cfg.frequency * (s.time + cfg.dt)) := by
  unfold tick
  rw [driveStage_y]
  simp

theorem tick_drive_vel (cfg : Config) (s : SimState) :
    (tick cfg s).velocities (getDeriveConfig cfg).centerIndex = ⟨0, 0, 0⟩ :=
  driveStage_vel _ _

/-- C1: one Constrain projection on a constraint `(a,b)` with rest
length `L` is a no-op when `invMass(a) + invMass(b) = 0`, a no-op when
the predicted distance is below the `1e-4` threshold, and otherwise
moves `predicted(a)` by `+ invMass(a) * correction` and `predicted(b)`
by `- invMass(b) * correction` with
`correction = (delta / dist) * ((dist - L) / (invMass(a) + invMass(b)))`,
leaving every other entry of the predicted buffer unchanged. -/
theorem constrain_projection_spec (im : ℕ → ℝ) (a b : ℕ) (L : ℝ) (p : ℕ → Vec3) :
    (im a + im b = 0 → constrainOne im (a, b) L p = p) ∧
    ((p b - p a).norm < 1e-4 → constrainOne im (a, b) L p = p) ∧
    (im a + im b ≠ 0 → ¬ (p b - p a).norm < 1e-4 →
      constrainOne im (a, b) L p a
        = p a + im a • (((p b - p a).norm - L) / (im a + im b)) •
            (p b - p a).sdiv (p b - p a).norm ∧
      constrainOne im (a, b) L p b
        = p b - im b • (((p b - p a).norm - L) / (im a + im b)) •
            (p b - p a).sdiv (p b - p a).norm ∧
      ∀ j, j ≠ a → j ≠ b → constrainOne im (a, b) L p j = p j) :=
  ⟨constrainOne_pinned im a b L p,
   constrainOne_near im a b L p,
   fun h0 hd => (constrainOne_free im a b L p h0 hd).2⟩

/-- Inverse-mass buffer used in the C1 witness: both endpoints free. -/
noncomputable def wIm : ℕ → ℝ := fun _ => 1

/-- Predicted-position buffer used in the C1 witness. -/
noncomputable def wP : ℕ → Vec3 := fun i => if i = 1 then ⟨3, 0, 0⟩ else ⟨0, 0, 0⟩

theorem wP_delta : wP 1 - wP 0 = (⟨3, 0, 0⟩ : Vec3) := by
  unfold wP
  norm_num
  ext <;> simp [Vec3.sub]

theorem wP_norm : (wP 1 - wP 0).norm = 3 := by
  rw [wP_delta]
  unfold Vec3.norm
  rw [show ((3:ℝ) ^ 2 + 0 ^ 2 + 0 ^ 2) = 3 ^ 2 by norm_num,
    Real.sqrt_sq (by norm_num)]

theorem constrain_projection_spec_witness :
    constrainOne (fun _ => (0 : ℝ)) (0, 1) 1 (fun _ => (⟨0, 0, 0⟩ : Vec3))
      = (fun _ => (⟨0, 0, 0⟩ : Vec3)) ∧
    constrainOne (fun _ => (1 : ℝ)) (0, 1) 1 (fun _ => (⟨0, 0, 0⟩ : Vec3))
      = (fun _ => (⟨0, 0, 0⟩ : Vec3)) ∧
    constrainOne wIm (0, 1) 1 wP 0 = (⟨1, 0, 0⟩ : Vec3) ∧
    constrainOne wIm (0, 1) 1 wP 1 = (⟨2, 0, 0⟩ : Vec3) ∧
    constrainOne wIm (0, 1) 1 wP 5 = (⟨0, 0, 0⟩ : Vec3) := by
  have h1 := (constrain_projection_spec (fun _ => (0 : ℝ)) 0 1 1
    (fun _ => (⟨0, 0, 0⟩ : Vec3))).1 (by norm_num)
  have h2 := (constrain_projection_spec (fun _ => (1 : ℝ)) 0 1 1
    (fun _ => (⟨0, 0, 0⟩ : Vec3))).2.1
    (by rw [sub_self_vec, Vec3.norm_zero_vec]; norm_num)
  have h3 := (constrain_projection_spec wIm 0 1 1 wP).2.2
    (by unfold wIm; norm_num)
    (by rw [wP_norm]; norm_num)
  refine ⟨h1, h2, ?_, ?_, ?_⟩
  · rw [h3.1, wP_norm, wP_delta]
    unfold wIm wP
    norm_num
    ext <;> simp [Vec3.add, Vec3.smul, Vec3.sdiv] <;> norm_num
  · rw [h3.2.1, wP_norm, wP_delta]
    unfold wIm wP
    norm_num
    ext <;> simp [Vec3.sub, Vec3.smul, Vec3.sdiv] <;> norm_num
  · rw [h3.2.2 5 (by norm_num) (by norm_num)]
    unfold wP
    norm_num

/-- C2: the Predict stage copies position into predicted and leaves the
velocity alone for a pinned vertex; for a free vertex it applies gravity
to the velocity exactly when gravity is enabled and predicts
`position + velocity * dt` with the updated velocity; the position
buffer is untouched. -/
theorem predict_stage_spec (cfg : Config) (s : SimState) (i : ℕ)
    (hi : i < (getDeriveConfig cfg).vertexCount) :
    (s.inverseMasses i = 0 →
      (predictStage cfg s).predicted i = s.positions i ∧
      (predictStage cfg s).velocities i = s.velocities i) ∧
    (s.inverseMasses i ≠ 0 →
      (cfg.gravityEnabled = true →
        (predictStage cfg s).velocities i
          = ⟨(s.velocities i).x, (s.velocities i).y - cfg.gravity * cfg.dt,
             (s.velocities i).z⟩) ∧
      (cfg.gravityEnabled = false →
        (predictStage cfg s).velocities i = s.velocities i) ∧
      (predictStage cfg s).predicted i
        = s.positions i + cfg.dt • (predictStage cfg s).velocities i) ∧
    (predictStage cfg s).positions = s.positions := by
  refine ⟨?_, ?_, rfl⟩
  · intro h0
    unfold predictStage
    simp [hi, h0]
  · intro hfree
    refine ⟨?_, ?_, ?_⟩
    · intro hg
      unfold predictStage predictVelocity
      simp [hi, hfree, hg]
    · intro hg
      unfold predictStage predictVelocity
      simp [hi, hfree, hg]
    · unfold predictStage
      simp [hi, hfree]

/-- Configuration used by the C2 witness. -/
noncomputable def cfgP : Config :=
  { width := 2, height := 2, resolutionX := 2, resolutionY := 2, dt := 1,
    gravity := 1, gravityEnabled := true, damping := 1,
    constraintIterations := 1, amplitude := 1, frequency := 1 }

/-- State used by the C2 witness: vertex 0 pinned, vertex 1 free. -/
noncomputable def wS : SimState :=
  { positions := fun _ => ⟨1, 2, 3⟩
    velocities := fun _ => ⟨0, 0, 1⟩
    predicted := fun _ => ⟨0, 0, 0⟩
    inverseMasses := fun i => if i = 0 then 0 else 1
    constraints := []
    restLengths := []
    time := 0 }

theorem predict_stage_spec_witness :
    (predictStage cfgP wS).predicted 0 = (⟨1, 2, 3⟩ : Vec3) ∧
    (predictStage cfgP wS).velocities 0 = (⟨0, 0, 1⟩ : Vec3) ∧
    (predictStage cfgP wS).velocities 1 = (⟨0, -1, 1⟩ : Vec3) ∧
    (predictStage cfgP wS).predicted 1 = (⟨1, 1, 4⟩ : Vec3) ∧
    (predictStage cfgP wS).positions = wS.positions := by
  have hi0 : (0 : ℕ) < (getDeriveConfig cfgP).vertexCount := by
    unfold getDeriveConfig cfgP; norm_num
  have hi1 : (1 : ℕ) < (getDeriveConfig cfgP).vertexCount := by
    unfold getDeriveConfig cfgP; norm_num
  have h0 := (predict_stage_spec cfgP wS 0 hi0).1 (by unfold wS; norm_num)
  have h1 := (predict_stage_spec cfgP wS 1 hi1).2.1 (by unfold wS; norm_num)
  have hv1 := h1.1 (by unfold cfgP; rfl)
  refine ⟨?_, ?_, ?_, ?_, (predict_stage_spec cfgP wS 0 hi0).2.2⟩
  · rw [h0.1]; unfold wS; rfl
  · rw [h0.2]; unfold wS; rfl
  · rw [hv1]
    unfold wS cfgP
    ext <;> simp <;> norm_num
  · rw [h1.2.2, hv1]
    unfold wS cfgP
    ext <;> simp [Vec3.add, Vec3.smul] <;> norm_num

/-- C3: after one full tick the driven vertex's position y-component is
exactly `amplitude * sin(frequency * t)` at the accumulated time
`t = time + dt`, its velocity is zeroed, the accumulated time advances
by `dt`, and the Drive stage leaves the driven vertex's x and z position
components unchanged. -/
theorem drive_overrides_physics (cfg : Config) (s : SimState) :
    ((tick cfg s).positions (getDeriveConfig cfg).centerIndex).y
      = cfg.amplitude * Real.sin (cfg.frequency * (s.time + cfg.dt)) ∧
    (tick cfg s).velocities (getDeriveConfig cfg).centerIndex = ⟨0, 0, 0⟩ ∧
    (tick cfg s).time = s.time + cfg.dt ∧
    ∀ s2 : SimState,
      ((driveStage cfg s2).positions (getDeriveConfig cfg).centerIndex).x
        = (s2.positions (getDeriveConfig cfg).centerIndex).x ∧
      ((driveStage cfg s2).positions (getDeriveConfig cfg).centerIndex).z
        = (s2.positions (getDeriveConfig cfg).centerIndex).z :=
  ⟨tick_drive_y cfg s, tick_drive_vel cfg s, tick_time cfg s,
   fun s2 => ⟨driveStage_x cfg s2, driveStage_z cfg s2⟩⟩

/-- Configuration exhibiting the driven-index/pinned-corner collision:
a 2 × 2 grid. -/
noncomputable def cfgDrive : Config :=
  { width := 10, height := 10, resolutionX := 2, resolutionY := 2,
    dt := 0.016, gravity := 9.81, gravityEnabled := false, damping := 0.99,
    constraintIterations := 5, amplitude := 1.5, frequency := 3 }

theorem cfgDrive_center : (getDeriveConfig cfgDrive).centerIndex = 3 := rfl

/-- C10: the Drive stage writes the driven vertex unconditionally (no
bounds or inverse-mass check); on the 2 × 2 configuration the driven
index computed at setup is 3, which is the pinned corner (row 1, col 1),
so the Drive stage overrides a pinned vertex's position every tick. -/
theorem drive_hits_pinned_corner :
    (getDeriveConfig cfgDrive).centerIndex = 3 ∧
    cornerPair cfgDrive 3 ∧
    (initState cfgDrive).inverseMasses 3 = 0 ∧
    (∀ s : SimState,
      ((driveStage cfgDrive s).positions 3).y
        = cfgDrive.amplitude * Real.sin (cfgDrive.frequency * s.time) ∧
      (driveStage cfgDrive s).velocities 3 = ⟨0, 0, 0⟩) ∧
    ∀ s : SimState,
      ((tick cfgDrive s).positions 3).y
        = cfgDrive.amplitude * Real.sin (cfgDrive.frequency * (s.time + cfgDrive.dt)) := by
  refine ⟨rfl, ?_, ?_, ?_, ?_⟩
  · unfold cornerPair cfgDrive
    norm_num
  · unfold initState initInverseMass isCorner cfgDrive
    norm_num
  · intro s
    constructor
    · have := driveStage_y cfgDrive s
      rwa [cfgDrive_center] at this
    · have := driveStage_vel cfgDrive s
      rwa [cfgDrive_center] at this
  · intro s
    have := tick_drive_y cfgDrive s
    rwa [cfgDrive_center] at this

end Cloth

namespace Cloth

theorem isCorner_iff (cfg : Config) (i : ℕ) :
    isCorner cfg i = true ↔ cornerPair cfg i := by
  unfold isCorner cornerPair
  simp only [Bool.and_eq_true, Bool.or_eq_true, beq_iff_eq]
  tauto

theorem initInverseMass_eq_zero_iff (cfg : Config) (i : ℕ) :
    initInverseMass cfg i = 0 ↔ cornerPair cfg i := by
  unfold initInverseMass
  by_cases h : isCorner cfg i
  · simp [h, (isCorner_iff cfg i).mp h]
  · simp only [h, if_false]
    constructor
    · intro h1
      exact absurd h1 one_ne_zero
    · intro hc
      exact absurd ((isCorner_iff cfg i).mpr hc) h

/-- C4: at initialization and after any number of ticks, a vertex's
inverse mass is 0 iff its (row, col) is one of the four grid corners,
and is 1 otherwise; no per-tick stage writes the inverse-mass buffer. -/
theorem pinned_iff_corner (cfg : Config) (n i : ℕ)
    (hx : 2 ≤ cfg.resolutionX) (hy : 2 ≤ cfg.resolutionY)
    (hi : i < cfg.resolutionX * cfg.resolutionY) :
    (((tick cfg)^[n] (initState cfg)).inverseMasses i = 0 ↔ cornerPair cfg i) ∧
    (¬ cornerPair cfg i → ((tick cfg)^[n] (initState cfg)).inverseMasses i = 1) := by
  rw [tickN_inverseMasses]
  refine ⟨initInverseMass_eq_zero_iff cfg i, ?_⟩
  intro hnc
  show initInverseMass cfg i = 1
  unfold initInverseMass
  rw [if_neg]
  intro hc
  exact hnc ((isCorner_iff cfg i).mp hc)

/-- Configuration used by the C4 witness: a 3 × 3 grid. -/
noncomputable def cfgW : Config :=
  { width := 3, height := 3, resolutionX := 3, resolutionY := 3, dt := 1,
    gravity := 1, gravityEnabled := false, damping := 1,
    constraintIterations := 1, amplitude := 1, frequency := 1 }

theorem pinned_iff_corner_witness :
    ((tick cfgW)^[0] (initState cfgW)).inverseMasses 2 = 0 ∧
    ((tick cfgW)^[0] (initState cfgW)).inverseMasses 4 = 1 := by
  have hc : cornerPair cfgW 2 := by
    unfold cornerPair cfgW
    norm_num
  have hnc : ¬ cornerPair cfgW 4 := by
    unfold cornerPair cfgW
    norm_num
  exact ⟨(pinned_iff_corner cfgW 0 2 (by norm_num [cfgW]) (by norm_num [cfgW])
      (by norm_num [cfgW])).1.mpr hc,
    (pinned_iff_corner cfgW 0 4 (by norm_num [cfgW]) (by norm_num [cfgW])
      (by norm_num [cfgW])).2 hnc⟩

theorem tick_positions_pinned (cfg : Config) (s : SimState) (i : ℕ)
    (him : s.inverseMasses i = 0)
    (hne : i ≠ (getDeriveConfig cfg).centerIndex) :
    (tick cfg s).positions i = s.positions i := by
  unfold tick driveStage
  simp only []
  rw [Function.update_noteq hne]
  unfold integrateStage
  simp [him]

/-- C5 (amended): a pinned corner vertex whose index is not the driven
center index has the same position after any number of ticks as at
initialization, for every configuration and every
gravity/gravityEnabled/damping setting. -/
theorem pinned_corner_position_fixed (cfg : Config) (n i : ℕ)
    (hc : cornerPair cfg i)
    (hne : i ≠ (getDeriveConfig cfg).centerIndex) :
    ((tick cfg)^[n] (initState cfg)).positions i = (initState cfg).positions i := by
  induction n with
  | zero => rfl
  | succ n ih =>
      rw [Function.iterate_succ_apply', tick_positions_pinned cfg _ i ?_ hne]
      · exact ih
      · rw [tickN_inverseMasses]
        exact (initInverseMass_eq_zero_iff cfg i).mpr hc

theorem pinned_corner_position_fixed_witness :
    ((tick cfgW)^[3] (initState cfgW)).positions 2 = (initState cfgW).positions 2 := by
  have hc : cornerPair cfgW 2 := by
    unfold cornerPair cfgW
    norm_num
  have hne : 2 ≠ (getDeriveConfig cfgW).centerIndex := by
    unfold getDeriveConfig cfgW
    norm_num
  exact pinned_corner_position_fixed cfgW 3 2 hc hne

/-- Configuration refuting C5 as stated: on a 2 × 2 grid the driven
center index is the pinned corner 3, and the Drive stage moves it. -/
noncomputable def cfg5 : Config :=
  { width := 1, height := 1, resolutionX := 2, resolutionY := 2,
    dt := Real.pi / 2, gravity := 0, gravityEnabled := false, damping := 1,
    constraintIterations := 0, amplitude := 1, frequency := 1 }

theorem pinned_corner_moves_counterexample :
    cornerPair cfg5 3 ∧
    (initState cfg5).inverseMasses 3 = 0 ∧
    0 < cfg5.dt ∧
    ((tick cfg5)^[1] (initState cfg5)).positions 3 ≠ (initState cfg5).positions 3 := by
  refine ⟨?_, ?_, ?_, ?_⟩
  · unfold cornerPair cfg5
    norm_num
  · exact (initInverseMass_eq_zero_iff cfg5 3).mpr (by unfold cornerPair cfg5; norm_num)
  · show 0 < Real.pi / 2
    positivity
  · have hy : (((tick cfg5)^[1] (initState cfg5)).positions 3).y = 1 := by
      rw [Function.iterate_one]
      have h := tick_drive_y cfg5 (initState cfg5)
      rw [show (getDeriveConfig cfg5).centerIndex = 3 from rfl] at h
      rw [h]
      show cfg5.amplitude * Real.sin (cfg5.frequency * ((initState cfg5).time + cfg5.dt)) = 1
      have ht : (initState cfg5).time = 0 := rfl
      rw [ht]
      show (1 : ℝ) * Real.sin (1 * (0 + Real.pi / 2)) = 1
      rw [one_mul, zero_add, one_mul, Real.sin_pi_div_two]
    have hy0 : ((initState cfg5).positions 3).y = 0 := rfl
    intro hEq
    rw [hEq, hy0] at hy
    exact zero_ne_one hy

/-- C6 (amended): setup performs no configuration validation and never
raises: for every configuration, including invalid ones, initialization
completes and yields the initialized state. -/
theorem setup_never_raises (cfg : Config) :
    initializeSim cfg = Except.ok (initState cfg) := rfl

/-- A configuration that is invalid per the specification: resolutionX
is 1, below the minimum of 2. -/
noncomputable def invalidCfg : Config :=
  { width := 10, height := 10, resolutionX := 1, resolutionY := 32,
    dt := 0.016, gravity := 9.81, gravityEnabled := false, damping := 0.99,
    constraintIterations := 5, amplitude := 1.5, frequency := 3 }

theorem setup_no_validation_counterexample :
    invalidCfg.resolutionX < 2 ∧
    initializeSim invalidCfg ≠ Except.error SetupError.invalidConfiguration ∧
    initializeSim invalidCfg = Except.ok (initState invalidCfg) := by
  refine ⟨by norm_num [invalidCfg], ?_, rfl⟩
  intro h
  exact Except.noConfusion h

/-- C7: the rest length stored at setup for constraint `k = (a, b)` is
the Euclidean distance between the endpoints' initial grid positions,
and the rest-length buffer is unchanged by any number of ticks. -/
theorem rest_length_roundtrip (cfg : Config) (k a b n : ℕ)
    (h : (initState cfg).constraints.get? k = some (a, b)) :
    (initState cfg).restLengths.get? k
      = some (dist3 (initPosition cfg a) (initPosition cfg b)) ∧
    ((tick cfg)^[n] (initState cfg)).restLengths = (initState cfg).restLengths := by
  constructor
  · show (genRestLengths cfg).get? k = _
    unfold genRestLengths
    rw [List.get?_map]
    have h' : (genConstraints cfg.resolutionX cfg.resolutionY).get? k = some (a, b) := h
    rw [h']
    rfl
  · exact tickN_restLengths cfg n _

theorem rest_length_roundtrip_witness :
    (initState cfgDrive).restLengths.get? 0
      = some (dist3 (initPosition cfgDrive 0) (initPosition cfgDrive 1)) ∧
    ((tick cfgDrive)^[2] (initState cfgDrive)).restLengths
      = (initState cfgDrive).restLengths :=
  rest_length_roundtrip cfgDrive 0 0 1 2 rfl

/-- C8: for a single constraint with both endpoints free (inverse mass 1)
and pre-projection distance at least the 1e-4 threshold, one Constrain
projection brings the endpoint distance strictly closer to the rest
length whenever it differed from it. -/
theorem constrain_moves_toward_rest (p : ℕ → Vec3) (im : ℕ → ℝ) (a b : ℕ) (L : ℝ)
    (hA : im a = 1) (hB : im b = 1) (hL : 0 ≤ L)
    (hd : 1e-4 ≤ (p b - p a).norm)
    (hne : (p b - p a).norm ≠ L) :
    |(constrainOne im (a, b) L p b - constrainOne im (a, b) L p a).norm - L|
      < |(p b - p a).norm - L| := by
  have hd0 : 0 < (p b - p a).norm := lt_of_lt_of_le (by norm_num) hd
  have h0 : im a + im b ≠ 0 := by rw [hA, hB]; norm_num
  have hnd : ¬ (p b - p a).norm < 1e-4 := not_lt.mpr hd
  obtain ⟨hab, ha, hb, -⟩ := constrainOne_free im a b L p h0 hnd
  have key : constrainOne im (a, b) L p b - constrainOne im (a, b) L p a
      = (L / (p b - p a).norm) • (p b - p a) := by
    rw [ha, hb, hA, hB]
    ext <;> simp <;> field_simp <;> ring
  rw [key, Vec3.norm_smul, abs_of_nonneg (div_nonneg hL hd0.le),
    div_mul_cancel₀ L hd0.ne', sub_self, abs_zero]
  exact abs_pos.mpr (sub_ne_zero.mpr hne)

theorem constrain_moves_toward_rest_witness :
    |(constrainOne wIm (0, 1) 1 wP 1 - constrainOne wIm (0, 1) 1 wP 0).norm - 1|
      < |(wP 1 - wP 0).norm - 1| :=
  constrain_moves_toward_rest wP wIm 0 1 1 rfl rfl (by norm_num)
    (by rw [wP_norm]; norm_num) (by rw [wP_norm]; norm_num)

end Cloth

namespace Cloth

theorem length_flatMap_range {α : Type} (f : ℕ → List α) (n : ℕ) :
    ((List.range n).flatMap f).length = ∑ i in Finset.range n, (f i).length := by
  induction n with
  | zero => rfl
  | succ n ih =>
      rw [List.range_succ, List.flatMap_append, List.length_append, ih,
        Finset.sum_range_succ]
      simp

theorem sum_ite_lt_const (n c : ℕ) :
    ∑ z in Finset.range n, (if z < n - 1 then c else 0) = (n - 1) * c := by
  cases n with
  | zero => simp
  | succ m =>
      rw [Finset.sum_range_succ]
      simp only [Nat.succ_sub_one]
      rw [Finset.sum_congr rfl (fun x hx => if_pos (Finset.mem_range.mp hx))]
      simp

theorem genConstraints_inner_length (rx ry z : ℕ) :
    ((List.range rx).flatMap fun x =>
        (if x < rx - 1 then [(z * rx + x, z * rx + x + 1)] else []) ++
        (if z < ry - 1 then [(z * rx + x, z * rx + x + rx)] else [])).length
      = (rx - 1) + (if z < ry - 1 then rx else 0) := by
  rw [length_flatMap_range]
  have hlen : ∀ x : ℕ,
      ((if x < rx - 1 then [(z * rx + x, z * rx + x + 1)] else []) ++
        (if z < ry - 1 then [(z * rx + x, z * rx + x + rx)] else [])).length
      = (if x < rx - 1 then 1 else 0) + (if z < ry - 1 then 1 else 0) := by
    intro x
    rw [List.length_append]
    congr 1 <;> split <;> rfl
  rw [Finset.sum_congr rfl (fun x _ => hlen x), Finset.sum_add_distrib]
  congr 1
  · have := sum_ite_lt_const rx 1
    rw [this, Nat.mul_one]
  · split
    · simp
    · simp

theorem genConstraints_length (rx ry : ℕ) :
    (genConstraints rx ry).length = (rx - 1) * ry + rx * (ry - 1) := by
  unfold genConstraints
  rw [length_flatMap_range,
    Finset.sum_congr rfl (fun z _ => genConstraints_inner_length rx ry z),
    Finset.sum_add_distrib, sum_ite_lt_const, Finset.sum_const, Finset.card_range,
    smul_eq_mul]
  ring

/-- C9: setup produces `resolutionX * resolutionY` vertices, and the
constraint generator produces
`(resolutionX-1)*resolutionY + resolutionX*(resolutionY-1)` constraints,
one per grid edge. -/
theorem counts_spec (cfg : Config)
    (hx : 2 ≤ cfg.resolutionX) (hy : 2 ≤ cfg.resolutionY) :
    (getDeriveConfig cfg).vertexCount = cfg.resolutionX * cfg.resolutionY ∧
    (initState cfg).constraints.length
      = (cfg.resolutionX - 1) * cfg.resolutionY
        + cfg.resolutionX * (cfg.resolutionY - 1) :=
  ⟨rfl, genConstraints_length _ _⟩

theorem counts_spec_witness :
    (getDeriveConfig cfgW).vertexCount = cfgW.resolutionX * cfgW.resolutionY ∧
    (initState cfgW).constraints.length
      = (cfgW.resolutionX - 1) * cfgW.resolutionY
        + cfgW.resolutionX * (cfgW.resolutionY - 1) :=
  counts_spec cfgW (by norm_num [cfgW]) (by norm_num [cfgW])

end Cloth
